import Mathlib

/-!
Verification of the session/credential/persistence layer of the thorium
dashboard (files `auth.py` and `database.py`).

The SQLite tables are modelled as Lean lists of rows; `fetchone` on a
query without `ORDER BY` returns the first matching row in rowid
(insertion) order, modelled by `List.find?`.  Timestamps are natural
numbers counting seconds, so the 24-hour session lifetime is 86400.
The SHA-256 hex digest is an abstract parameter `sha` on strings
represented as `List Char`; the only facts used about it are the ones
used by the code (a hex digest contains no colon).
-/

namespace Thorium

/-- Python's `str.split(c)`: splits on every occurrence of `c`,
returning the (nonempty) list of fragments between occurrences. -/
def pySplit (c : Char) : List Char → List (List Char)
  | [] => [[]]
  | x :: xs =>
    if x = c then [] :: pySplit c xs
    else
      match pySplit c xs with
      | [] => [[x]]
      | y :: ys => (x :: y) :: ys

theorem pySplit_ne_nil (c : Char) (l : List Char) : pySplit c l ≠ [] := by
  cases l with
  | nil => simp [pySplit]
  | cons x xs =>
    simp only [pySplit]
    split
    · simp
    · split <;> simp

theorem pySplit_of_not_mem {c : Char} {l : List Char} (h : c ∉ l) :
    pySplit c l = [l] := by
  induction l with
  | nil => rfl
  | cons x xs ih =>
    simp only [List.mem_cons, not_or] at h
    simp only [pySplit, if_neg (Ne.symm h.1), ih h.2]

theorem pySplit_append {c : Char} {a b : List Char} (ha : c ∉ a) :
    pySplit c (a ++ c :: b) = a :: pySplit c b := by
  induction a with
  | nil => simp [pySplit]
  | cons x xs ih =>
    simp only [List.mem_cons, not_or] at ha
    simp only [List.cons_append, pySplit, if_neg (Ne.symm ha.1), List.append_eq, ih ha.2]

section Hashing

variable (sha : List Char → List Char)

/-- Model of `AuthManager.hash_password`: the random salt is passed
explicitly; the stored hash is `salt:sha(password+salt)`. -/
def hash_password (salt password : List Char) : List Char :=
  salt ++ ':' :: sha (password ++ salt)

/-- Model of `AuthManager.verify_password`: split the stored hash on
every colon; the Python tuple unpacking needs exactly two fragments,
and any exception (wrong number of fragments) yields `False`. -/
def verify_password (password stored : List Char) : Bool :=
  match pySplit ':' stored with
  | [salt, hv] => sha (password ++ salt) == hv
  | _ => false

theorem verify_hash_password {salt password : List Char}
    (hsalt : ':' ∉ salt) (hsha : ':' ∉ sha (password ++ salt)) :
    verify_password sha password (hash_password sha salt password) = true := by
  have hsplit : pySplit ':' (salt ++ ':' :: sha (password ++ salt))
      = [salt, sha (password ++ salt)] := by
    rw [pySplit_append hsalt, pySplit_of_not_mem hsha]
  simp [verify_password, hash_password, hsplit]

end Hashing

/-- A row of the `users` table (`id` is the autoincrement primary key;
`last_login` is NULL until the first login). -/
structure User where
  id : Nat
  username : String
  email : String
  password_hash : List Char
  role : String
  last_login : Option Nat
deriving DecidableEq

/-- A row of the `user_sessions` table. -/
structure Session where
  user_id : Nat
  session_token : String
  expires_at : Nat
deriving DecidableEq

/-- A row of the `simulation_history` table (`created_at` is the insert
timestamp; rows are listed in rowid order). -/
structure SimRecord where
  user_id : Nat
  simulation_type : String
  parameters : String
  results : String
  created_at : Nat
deriving DecidableEq

/-- A row of the `user_preferences` table of `database.py`.  The schema
puts no UNIQUE constraint on `(user_id, preference_key)`; only the
autoincrement primary key is unique. -/
structure PrefRow where
  user_id : Nat
  preference_key : String
  preference_value : String
deriving DecidableEq

/-- A row of the `export_history` table (only the fields `get_user_stats`
reads are kept). -/
structure ExportRecord where
  user_id : Nat
  export_type : String
  file_name : String
deriving DecidableEq

/-- The database state: one list of rows per table, in rowid order,
plus the next autoincrement id for `users`. -/
structure DB where
  users : List User
  sessions : List Session
  sims : List SimRecord
  prefs : List PrefRow
  exports : List ExportRecord
  nextUserId : Nat
deriving DecidableEq

/-- The empty database right after `init_database` (autoincrement ids
start at 1). -/
def emptyDB : DB := ⟨[], [], [], [], [], 1⟩

/-- The identity returned by `verify_session`. -/
structure Identity where
  id : Nat
  username : String
  email : String
  role : String
deriving DecidableEq

/-- The value returned by `login_user`: on success the user's row data
plus the fresh session token, on failure the error message string. -/
inductive LoginOutcome where
  | ok (id : Nat) (username email role session_token : String)
  | err (msg : String)
deriving DecidableEq

section Operations

variable (sha : List Char → List Char)

/-- The collision test of the UNIQUE constraints hit by
`register_user`'s INSERT: username and email must each be new. -/
def userCollides (username email : String) (u : User) : Bool :=
  u.username == username || u.email == email

/-- Model of `AuthManager.register_user`: on an IntegrityError (some
existing row shares the username or the email) nothing is inserted and
the failure message is returned; otherwise one row is appended to
`users` and the success message is returned.  The salt drawn inside
`hash_password` is passed explicitly. -/
def register_user (db : DB) (username email : String) (password : List Char)
    (role : String) (salt : List Char) : DB × Bool × String :=
  if db.users.any (userCollides username email) then
    (db, false, "Username or email already exists!")
  else
    ({ db with
        users := db.users ++
          [⟨db.nextUserId, username, email, hash_password sha salt password, role, none⟩],
        nextUserId := db.nextUserId + 1 },
     true, "User registered successfully!")

/-- The `SELECT ... WHERE username = ? OR email = ?` lookup of
`login_user`, with `fetchone` returning the first row in rowid order. -/
def findUser (ident : String) (us : List User) : Option User :=
  us.find? fun u => u.username == ident || u.email == ident

/-- Model of `AuthManager.login_user`: look the identifier up as
username or email; on a password match insert a session expiring 24
hours (86400 s) after `now`, set the user's `last_login`, and return
the user's row data with the fresh `token`; otherwise return the error
message unchanged in both failure cases. -/
def login_user (db : DB) (ident : String) (password : List Char)
    (token : String) (now : Nat) : DB × LoginOutcome :=
  match findUser ident db.users with
  | some u =>
    if verify_password sha password u.password_hash then
      ({ db with
          sessions := db.sessions ++ [⟨u.id, token, now + 86400⟩],
          users := db.users.map fun v =>
            if v.id == u.id then { v with last_login := some now } else v },
       .ok u.id u.username u.email u.role token)
    else (db, .err "Invalid username or password!")
  | none => (db, .err "Invalid username or password!")

end Operations

/-- Model of `AuthManager.verify_session`: the join of `users` and
`user_sessions` on `user_id`, filtered to the given token with
`expires_at > now` (strict), `fetchone`d.  The token is UNIQUE and user
ids are the primary key, so the first matching session and then the
first user with its `user_id` give the row the join returns. -/
def verify_session (db : DB) (token : String) (now : Nat) : Option Identity :=
  match db.sessions.find? fun s => s.session_token == token && decide (now < s.expires_at) with
  | some s =>
    match db.users.find? fun u => u.id == s.user_id with
    | some u => some ⟨u.id, u.username, u.email, u.role⟩
    | none => none
  | none => none

/-- Model of `AuthManager.logout_user`: DELETE the rows (at most one,
by UNIQUE) carrying the token. -/
def logout_user (db : DB) (token : String) : DB :=
  { db with sessions := db.sessions.filter fun s => !(s.session_token == token) }

/-- Model of `AuthManager.save_simulation`: INSERT one row into
`simulation_history` with the current timestamp. -/
def save_simulation (db : DB) (uid : Nat) (stype params results : String)
    (now : Nat) : DB :=
  { db with sims := db.sims ++ [⟨uid, stype, params, results, now⟩] }

/-- A projected row of `get_user_simulations` (the SELECT drops
`user_id`). -/
structure SimRow where
  simulation_type : String
  parameters : String
  results : String
  created_at : Nat
deriving DecidableEq

/-- Insert a record into a list sorted by descending `created_at`,
keeping it sorted. -/
def insertDesc (r : SimRecord) : List SimRecord → List SimRecord
  | [] => [r]
  | x :: xs => if x.created_at < r.created_at then r :: x :: xs else x :: insertDesc r xs

/-- Sort records by descending `created_at` (the `ORDER BY created_at
DESC`). -/
def sortDesc (l : List SimRecord) : List SimRecord :=
  l.foldr insertDesc []

/-- Model of `AuthManager.get_user_simulations`: the user's rows,
ordered by `created_at` descending, truncated to `limit`, projected to
the four selected columns. -/
def get_user_simulations (db : DB) (uid : Nat) (limit : Nat) : List SimRow :=
  ((sortDesc (db.sims.filter fun s => s.user_id == uid)).map fun s =>
    (⟨s.simulation_type, s.parameters, s.results, s.created_at⟩ : SimRow)).take limit

/-- Model of `DatabaseManager.save_user_preference`.  The statement is
`INSERT OR REPLACE`, but the only uniqueness in the table's schema is
the autoincrement primary key, which a fresh INSERT never violates, so
the statement always inserts a new row and never replaces. -/
def save_user_preference (db : DB) (uid : Nat) (key value : String) : DB :=
  { db with prefs := db.prefs ++ [⟨uid, key, value⟩] }

/-- The `(preference_key, preference_value)` rows `get_user_preferences`
fetches for a user, in rowid order. -/
def pref_rows (db : DB) (uid : Nat) : List (String × String) :=
  (db.prefs.filter fun p => p.user_id == uid).map fun p =>
    (p.preference_key, p.preference_value)

/-- Model of `DatabaseManager.get_user_preferences` as a lookup in the
returned dict: Python's `dict(pairs)` keeps, for each key, the value of
the last pair carrying it. -/
def get_user_preferences (db : DB) (uid : Nat) (key : String) : Option String :=
  ((pref_rows db uid).reverse.find? fun p => p.1 == key).map Prod.snd

/-- The number of rows of a user for a given simulation type. -/
def typeCount (l : List SimRecord) (t : String) : Nat :=
  (l.filter fun s => s.simulation_type == t).length

/-- Pick a type of maximal count among the listed types (the `GROUP BY
simulation_type ORDER BY count DESC LIMIT 1 ... fetchone`); `none` on
an empty list, as `fetchone` returns `None` when there are no rows. -/
def argmaxCount (f : String → Nat) : List String → Option String
  | [] => none
  | t :: ts =>
    match argmaxCount f ts with
    | none => some t
    | some b => if f b < f t then some t else some b

/-- The result record of `get_user_stats`. -/
structure UserStats where
  simulation_count : Nat
  export_count : Nat
  last_login : Option Nat
  favorite_simulation : String
deriving DecidableEq

/-- Model of `DatabaseManager.get_user_stats`: counts over
`simulation_history` and `export_history`, the user's `last_login`, and
the most frequent simulation type, with the string `"None"` standing in
when the user has no simulation rows. -/
def get_user_stats (db : DB) (uid : Nat) : UserStats :=
  let mine := db.sims.filter fun s => s.user_id == uid
  { simulation_count := mine.length
    export_count := (db.exports.filter fun e => e.user_id == uid).length
    last_login :=
      match db.users.find? fun u => u.id == uid with
      | some u => u.last_login
      | none => none
    favorite_simulation :=
      match argmaxCount (typeCount mine) ((mine.map SimRecord.simulation_type).dedup) with
      | some t => t
      | none => "None" }

/-- A concrete stand-in for the SHA-256 hex digest used by the closed
witness statements: total, and its output never contains a colon, the
only property of the digest the code relies on. -/
def shaW : List Char → List Char :=
  fun l => 'd' :: l.filter fun c => !(c == ':')

theorem shaW_no_colon (x : List Char) : ':' ∉ shaW x := by
  simp [shaW, List.mem_filter]

/-- C10: `verify_password` is total, and on a stored hash that contains
no colon separator the `split` yields a single fragment, the tuple
unpacking fails, and the exception handler returns `False`. -/
theorem c10_verify_password_malformed (sha : List Char → List Char)
    (password stored : List Char) (h : ':' ∉ stored) :
    verify_password sha password stored = false := by
  simp only [verify_password, pySplit_of_not_mem h]

theorem c10_verify_password_malformed_witness :
    ':' ∉ ("abcdef".data : List Char)
    ∧ verify_password shaW "pw".data "abcdef".data = false :=
  ⟨by decide, c10_verify_password_malformed shaW "pw".data "abcdef".data (by decide)⟩

/-- C2, at the failing input: writing `(1, "theme", "dark")` and then
`(1, "theme", "light")` leaves TWO rows for the pair `(1, "theme")` in
`user_preferences`, not one — the `INSERT OR REPLACE` never replaces
because the schema has no UNIQUE constraint on `(user_id,
preference_key)` — although the dict built by `get_user_preferences`
still maps `"theme"` to the second value. -/
theorem c2_duplicate_pref_rows :
    ((save_user_preference (save_user_preference emptyDB 1 "theme" "dark")
        1 "theme" "light").prefs.filter fun p =>
          p.user_id == 1 && p.preference_key == "theme").length = 2
    ∧ get_user_preferences
        (save_user_preference (save_user_preference emptyDB 1 "theme" "dark")
          1 "theme" "light") 1 "theme" = some "light" := by
  constructor <;> rfl

/-- C9: for a registered user with zero rows in `simulation_history`,
`get_user_stats` reports a simulation count of 0 and the sentinel
string `"None"` as the favorite simulation type. -/
theorem c9_stats_no_simulations (db : DB) (uid : Nat)
    (_hu : ∃ u ∈ db.users, u.id = uid)
    (hs : db.sims.filter (fun s => s.user_id == uid) = []) :
    (get_user_stats db uid).simulation_count = 0
    ∧ (get_user_stats db uid).favorite_simulation = "None" := by
  simp [get_user_stats, hs, argmaxCount]

theorem c9_stats_no_simulations_witness :
    (∃ u ∈ (DB.mk [⟨1, "alice", "a@x", "h".data, "user", none⟩] [] [] [] [] 2).users, u.id = 1)
    ∧ ((DB.mk [⟨1, "alice", "a@x", "h".data, "user", none⟩] [] [] [] [] 2).sims.filter
        (fun s => s.user_id == 1) = [])
    ∧ (get_user_stats (DB.mk [⟨1, "alice", "a@x", "h".data, "user", none⟩] [] [] [] [] 2) 1).simulation_count = 0
    ∧ (get_user_stats (DB.mk [⟨1, "alice", "a@x", "h".data, "user", none⟩] [] [] [] [] 2) 1).favorite_simulation = "None" :=
  ⟨by decide, by decide,
    c9_stats_no_simulations (DB.mk [⟨1, "alice", "a@x", "h".data, "user", none⟩] [] [] [] [] 2) 1
      (by decide) (by decide)⟩

/-- C8: `register_user` writes only to the `users` table: the session,
simulation, preference and export tables are unchanged in every case,
and on success exactly the one new row is appended to `users`, so no
session token exists for the new user until a separate login. -/
theorem c8_register_frame (sha : List Char → List Char) (db : DB)
    (username email : String) (password : List Char) (role : String)
    (salt : List Char) :
    (register_user sha db username email password role salt).1.sessions = db.sessions
    ∧ (register_user sha db username email password role salt).1.sims = db.sims
    ∧ (register_user sha db username email password role salt).1.prefs = db.prefs
    ∧ (register_user sha db username email password role salt).1.exports = db.exports
    ∧ ((register_user sha db username email password role salt).2.1 = true →
        (register_user sha db username email password role salt).1.users
          = db.users ++ [⟨db.nextUserId, username, email,
              hash_password sha salt password, role, none⟩]) := by
  unfold register_user
  split <;> simp

theorem c8_register_frame_witness :
    (register_user shaW emptyDB "alice" "a@x" "pw".data "user" "sa".data).1.sessions = emptyDB.sessions
    ∧ (register_user shaW emptyDB "alice" "a@x" "pw".data "user" "sa".data).1.sims = emptyDB.sims
    ∧ (register_user shaW emptyDB "alice" "a@x" "pw".data "user" "sa".data).1.prefs = emptyDB.prefs
    ∧ (register_user shaW emptyDB "alice" "a@x" "pw".data "user" "sa".data).1.exports = emptyDB.exports
    ∧ ((register_user shaW emptyDB "alice" "a@x" "pw".data "user" "sa".data).2.1 = true →
        (register_user shaW emptyDB "alice" "a@x" "pw".data "user" "sa".data).1.users
          = emptyDB.users ++ [⟨emptyDB.nextUserId, "alice", "a@x",
              hash_password shaW "sa".data "pw".data, "user", none⟩]) :=
  c8_register_frame shaW emptyDB "alice" "a@x" "pw".data "user" "sa".data

/-- C6: `logout_user` deletes exactly the session rows carrying the
token, it is idempotent, deleting an absent token leaves the database
unchanged, and after it `verify_session` on that token returns
nothing. -/
theorem c6_logout_idempotent_delete (db : DB) (token : String) (now : Nat) :
    (∀ s, s ∈ (logout_user db token).sessions ↔
        s ∈ db.sessions ∧ s.session_token ≠ token)
    ∧ logout_user (logout_user db token) token = logout_user db token
    ∧ ((∀ s ∈ db.sessions, s.session_token ≠ token) → logout_user db token = db)
    ∧ verify_session (logout_user db token) token now = none := by
  refine ⟨?_, ?_, ?_, ?_⟩
  · intro s
    simp [logout_user, List.mem_filter]
  · simp only [logout_user, List.filter_filter]
    congr 1
    apply List.filter_congr
    intro s _
    cases h : s.session_token == token <;> simp [h]
  · intro h
    have : db.sessions.filter (fun s => !(s.session_token == token)) = db.sessions := by
      apply List.filter_eq_self.mpr
      intro s hs
      simpa using h s hs
    cases db
    simp [logout_user] at this ⊢
    exact this
  · have hnone : (logout_user db token).sessions.find?
        (fun s => s.session_token == token && decide (now < s.expires_at)) = none := by
      apply List.find?_eq_none.mpr
      intro s hs
      have hmem : s.session_token ≠ token := by
        have := (List.mem_filter.mp hs).2
        simpa using this
      simp [hmem]
    simp [verify_session, hnone]

theorem c6_logout_idempotent_delete_witness :
    (∀ s ∈ (DB.mk [] [⟨1, "tokA", 500⟩] [] [] [] 2).sessions, s.session_token ≠ "tokB")
    ∧ logout_user (DB.mk [] [⟨1, "tokA", 500⟩] [] [] [] 2) "tokB"
        = DB.mk [] [⟨1, "tokA", 500⟩] [] [] [] 2
    ∧ verify_session (logout_user (DB.mk [] [⟨1, "tokA", 500⟩] [] [] [] 2) "tokB") "tokB" 0 = none :=
  ⟨by decide,
    (c6_logout_idempotent_delete (DB.mk [] [⟨1, "tokA", 500⟩] [] [] [] 2) "tokB" 0).2.2.1 (by decide),
    (c6_logout_idempotent_delete (DB.mk [] [⟨1, "tokA", 500⟩] [] [] [] 2) "tokB" 0).2.2.2⟩

/-- C4: the two ways `login_user` can fail — the identifier matches no
user row, or a row matches but the stored hash does not verify — both
return the same error constructor with the same message string, so the
caller cannot tell which part was wrong. -/
theorem c4_login_failure_indistinguishable (sha : List Char → List Char)
    (db : DB) (ident : String) (password : List Char) (token : String)
    (now : Nat) :
    (findUser ident db.users = none →
      (login_user sha db ident password token now).2
        = .err "Invalid username or password!")
    ∧ (∀ u, findUser ident db.users = some u →
        verify_password sha password u.password_hash = false →
        (login_user sha db ident password token now).2
          = .err "Invalid username or password!") := by
  constructor
  · intro h
    simp [login_user, h]
  · intro u hu hv
    simp [login_user, hu, hv]

theorem c4_login_failure_indistinguishable_witness :
    findUser "ghost" emptyDB.users = none
    ∧ (login_user shaW emptyDB "ghost" "pw".data "tok" 0).2
        = .err "Invalid username or password!" :=
  ⟨by decide,
    (c4_login_failure_indistinguishable shaW emptyDB "ghost" "pw".data "tok" 0).1 (by decide)⟩

/-- C5: a successful `login_user` returns the fresh token, appends to
`user_sessions` exactly one row mapping that token to the user's id
with expiry exactly 24 hours (86400 s) after `now` — hence strictly in
the future at issuance — and sets `last_login` to `now` on the user's
row. -/
theorem c5_login_success_session (sha : List Char → List Char) (db : DB)
    (ident : String) (password : List Char) (token : String) (now : Nat)
    (db2 : DB) (i : Nat) (un em rl tk : String)
    (h : login_user sha db ident password token now = (db2, .ok i un em rl tk)) :
    tk = token
    ∧ db2.sessions = db.sessions ++ [⟨i, token, now + 86400⟩]
    ∧ now < now + 86400
    ∧ (∃ u ∈ db2.users, u.id = i)
    ∧ (∀ u ∈ db2.users, u.id = i → u.last_login = some now) := by
  cases hf : findUser ident db.users with
  | none => simp [login_user, hf] at h
  | some u =>
    by_cases hv : verify_password sha password u.password_hash = true
    · simp only [login_user, hf, hv, if_true, Prod.mk.injEq, LoginOutcome.ok.injEq] at h
      obtain ⟨hdb2, hi, hun, hem, hrl, htk⟩ := h
      subst hdb2 hi hun hem hrl htk
      refine ⟨rfl, by simp, by omega, ?_, ?_⟩
      · refine ⟨{ u with last_login := some now }, ?_, rfl⟩
        have hmem : u ∈ db.users := List.mem_of_find?_eq_some hf
        have heq : (fun v => if v.id == u.id then { v with last_login := some now } else v) u
            = { u with last_login := some now } := by simp
        simp only []
        rw [← heq]
        exact List.mem_map_of_mem _ hmem
      · intro w hw hid
        simp only [List.mem_map] at hw
        obtain ⟨v, hv2, rfl⟩ := hw
        by_cases hc : v.id == u.id
        · simp [hc]
        · rw [if_neg hc] at hid ⊢
          exact absurd (by simpa using hid) (by simpa using hc)
    · simp [login_user, hf, hv] at h

/-- The database after registering one user into the empty database. -/
def db1W : DB := (register_user shaW emptyDB "alice" "a@x" "pw".data "user" "sa".data).1

/-- The database after that user then logs in at time 100 with fresh
token `"tok"`. -/
def db2W : DB := (login_user shaW db1W "alice" "pw".data "tok" 100).1

theorem c5_login_success_session_witness :
    login_user shaW db1W "alice" "pw".data "tok" 100
      = (db2W, LoginOutcome.ok 1 "alice" "a@x" "user" "tok")
    ∧ ("tok" = "tok"
      ∧ db2W.sessions = db1W.sessions ++ [⟨1, "tok", 100 + 86400⟩]
      ∧ 100 < 100 + 86400
      ∧ (∃ u ∈ db2W.users, u.id = 1)
      ∧ (∀ u ∈ db2W.users, u.id = 1 → u.last_login = some 100)) :=
  ⟨by decide,
    c5_login_success_session shaW db1W "alice" "pw".data "tok" 100 db2W
      1 "alice" "a@x" "user" "tok" (by decide)⟩

theorem mem_insertDesc {a r : SimRecord} {l : List SimRecord} :
    a ∈ insertDesc r l ↔ a = r ∨ a ∈ l := by
  induction l with
  | nil => simp [insertDesc]
  | cons x xs ih =>
    simp only [insertDesc]
    split
    · simp
    · simp only [List.mem_cons, ih]
      tauto

theorem insertDesc_sorted {r : SimRecord} {l : List SimRecord}
    (h : l.Pairwise fun a b => b.created_at ≤ a.created_at) :
    (insertDesc r l).Pairwise fun a b => b.created_at ≤ a.created_at := by
  induction l with
  | nil => simp [insertDesc]
  | cons x xs ih =>
    simp only [insertDesc]
    rw [List.pairwise_cons] at h
    split
    · rename_i hlt
      refine List.Pairwise.cons ?_ (List.Pairwise.cons h.1 h.2)
      intro b hb
      rcases List.mem_cons.mp hb with rfl | hb
      · exact le_of_lt hlt
      · exact le_trans (h.1 b hb) (le_of_lt hlt)
    · rename_i hge
      refine List.Pairwise.cons ?_ (ih h.2)
      intro b hb
      rcases mem_insertDesc.mp hb with rfl | hb
      · omega
      · exact h.1 b hb

theorem sortDesc_sorted (l : List SimRecord) :
    (sortDesc l).Pairwise fun a b => b.created_at ≤ a.created_at := by
  induction l with
  | nil => exact List.Pairwise.nil
  | cons x xs ih => exact insertDesc_sorted ih

/-- C7: `save_simulation` only appends; after recording exactly three
simulations for a user whose history was empty, `get_user_simulations`
with limit 10 returns exactly those three rows most-recent-first; and
in general the listing has at most `limit` rows and is ordered by
descending `created_at`. -/
theorem c7_simulation_history (db : DB) (uid : Nat)
    (s1 p1 r1 s2 p2 r2 s3 p3 r3 : String) (t1 t2 t3 : Nat)
    (h0 : db.sims.filter (fun s => s.user_id == uid) = [])
    (h12 : t1 < t2) (h23 : t2 < t3) :
    (∀ d u st pa re n, (save_simulation d u st pa re n).sims
        = d.sims ++ [⟨u, st, pa, re, n⟩])
    ∧ get_user_simulations
        (save_simulation (save_simulation (save_simulation db uid s1 p1 r1 t1)
          uid s2 p2 r2 t2) uid s3 p3 r3 t3) uid 10
      = [⟨s3, p3, r3, t3⟩, ⟨s2, p2, r2, t2⟩, ⟨s1, p1, r1, t1⟩]
    ∧ (∀ d u lim, (get_user_simulations d u lim).length ≤ lim
        ∧ (get_user_simulations d u lim).Pairwise
            fun a b => b.created_at ≤ a.created_at) := by
  refine ⟨fun d u st pa re n => rfl, ?_, ?_⟩
  · have hn32 : ¬ t3 < t2 := by omega
    have hn31 : ¬ t3 < t1 := by omega
    have hn21 : ¬ t2 < t1 := by omega
    simp [get_user_simulations, save_simulation, List.filter_append, h0,
      sortDesc, insertDesc, hn32, hn31, hn21]
  · intro d u lim
    refine ⟨List.length_take_le _ _, ?_⟩
    refine List.Pairwise.sublist (List.take_sublist _ _) ?_
    rw [List.pairwise_map]
    exact sortDesc_sorted _

theorem c7_simulation_history_witness :
    emptyDB.sims.filter (fun s => s.user_id == 7) = [] ∧ (10 : Nat) < 20 ∧ (20 : Nat) < 30
    ∧ get_user_simulations
        (save_simulation (save_simulation (save_simulation emptyDB 7 "a" "p1" "q1" 10)
          7 "b" "p2" "q2" 20) 7 "c" "p3" "q3" 30) 7 10
      = [⟨"c", "p3", "q3", 30⟩, ⟨"b", "p2", "q2", 20⟩, ⟨"a", "p1", "q1", 10⟩] :=
  ⟨by decide, by decide, by decide,
    (c7_simulation_history emptyDB 7 "a" "p1" "q1" "b" "p2" "q2" "c" "p3" "q3"
      10 20 30 (by decide) (by decide) (by decide)).2.1⟩

theorem find?_update_last_login (l : List User) (u : User) (now : Nat)
    (hids : (l.map User.id).Nodup) (hu : u ∈ l) :
    (l.map fun v => if v.id == u.id then { v with last_login := some now } else v).find?
        (fun w => w.id == u.id)
      = some { u with last_login := some now } := by
  induction l with
  | nil => cases hu
  | cons x xs ih =>
    rw [List.map_cons, List.nodup_cons] at hids
    have hgid : (if x.id == u.id then { x with last_login := some now } else x).id = x.id := by
      split <;> rfl
    cases hc : (x.id == u.id) with
    | true =>
      have hxu : x = u := by
        have hne : x.id = u.id := beq_iff_eq.mp hc
        rcases List.mem_cons.mp hu with rfl | hmm
        · rfl
        · have hin : u.id ∈ xs.map User.id := List.mem_map_of_mem User.id hmm
          rw [← hne] at hin
          exact absurd hin hids.1
      subst hxu
      simp [List.find?, hc]
    | false =>
      have hu2 : u ∈ xs := by
        rcases List.mem_cons.mp hu with rfl | hmm
        · simp at hc
        · exact hmm
      have hhead : (if (x.id == u.id) = true
          then { x with last_login := some now } else x) = x := by
        rw [if_neg]
        simp [hc]
      simp only [List.map_cons, List.find?]
      rw [hhead, hc]
      exact ih hids.2 hu2

/-- C3: `verify_session` returns an identity exactly when an unexpired
session row for the token exists (strict comparison of `now` with the
expiry); with every session for a token already revoked or expired it
returns nothing; and resolving a token right after the login that
issued it returns that user's identity.  The hypotheses state the
schema's invariants: user ids are unique, every session points at an
existing user, and the fresh token of a login does not already occur. -/
theorem c3_verify_session_spec (db : DB) (token : String) (now : Nat)
    (hids : (db.users.map User.id).Nodup)
    (hwf : ∀ s ∈ db.sessions, ∃ u ∈ db.users, u.id = s.user_id) :
    ((verify_session db token now).isSome ↔
      ∃ s ∈ db.sessions, s.session_token = token ∧ now < s.expires_at)
    ∧ ((∀ s ∈ db.sessions, s.session_token = token → s.expires_at ≤ now) →
        verify_session db token now = none)
    ∧ ((∀ s ∈ db.sessions, s.session_token ≠ token) →
        ∀ (sha : List Char → List Char) (ident : String) (password : List Char)
          (db2 : DB) (i : Nat) (un em rl tk : String),
          login_user sha db ident password token now = (db2, .ok i un em rl tk) →
          verify_session db2 token now = some ⟨i, un, em, rl⟩) := by
  refine ⟨⟨?_, ?_⟩, ?_, ?_⟩
  · intro hs
    cases hfind : db.sessions.find?
        (fun s => s.session_token == token && decide (now < s.expires_at)) with
    | none =>
      unfold verify_session at hs
      rw [hfind] at hs
      simp at hs
    | some s =>
      have hmem := List.mem_of_find?_eq_some hfind
      have hpred := List.find?_some hfind
      simp only [Bool.and_eq_true, beq_iff_eq, decide_eq_true_eq] at hpred
      exact ⟨s, hmem, hpred.1, hpred.2⟩
  · rintro ⟨s, hmem, htok, hexp⟩
    have hsome : (db.sessions.find?
        (fun s => s.session_token == token && decide (now < s.expires_at))).isSome := by
      rw [List.find?_isSome]
      exact ⟨s, hmem, by simp [htok, hexp]⟩
    obtain ⟨s0, hfind⟩ := Option.isSome_iff_exists.mp hsome
    have hs0mem := List.mem_of_find?_eq_some hfind
    obtain ⟨u, humem, huid⟩ := hwf s0 hs0mem
    have husome : (db.users.find? (fun u => u.id == s0.user_id)).isSome := by
      rw [List.find?_isSome]
      exact ⟨u, humem, by simp [huid]⟩
    obtain ⟨u0, hufind⟩ := Option.isSome_iff_exists.mp husome
    unfold verify_session
    rw [hfind]
    simp only []
    rw [hufind]
    simp
  · intro hexp
    have hfind : db.sessions.find?
        (fun s => s.session_token == token && decide (now < s.expires_at)) = none := by
      apply List.find?_eq_none.mpr
      intro s hs
      simp only [Bool.and_eq_true, beq_iff_eq, decide_eq_true_eq, not_and]
      intro htok
      have := hexp s hs htok
      omega
    unfold verify_session
    rw [hfind]
  · intro hfresh sha ident password db2 i un em rl tk h
    cases hf : findUser ident db.users with
    | none => simp [login_user, hf] at h
    | some u =>
      by_cases hv : verify_password sha password u.password_hash = true
      · simp only [login_user, hf, hv, if_true, Prod.mk.injEq, LoginOutcome.ok.injEq] at h
        obtain ⟨hdb2, hi, hun, hem, hrl, htk⟩ := h
        subst hdb2 hi hun hem hrl htk
        have hold : db.sessions.find?
            (fun s => s.session_token == token && decide (now < s.expires_at)) = none := by
          apply List.find?_eq_none.mpr
          intro s hs
          simp [hfresh s hs]
        have hsess : (db.sessions ++ [(⟨u.id, token, now + 86400⟩ : Session)]).find?
            (fun s => s.session_token == token && decide (now < s.expires_at))
            = some ⟨u.id, token, now + 86400⟩ := by
          rw [List.find?_append, hold]
          simp [List.find?]
        have hmem : u ∈ db.users := List.mem_of_find?_eq_some hf
        have hufind := find?_update_last_login db.users u now hids hmem
        unfold verify_session
        simp only []
        rw [hsess]
        simp only []
        rw [hufind]
      · simp [login_user, hf, hv] at h

theorem c3_verify_session_spec_witness :
    ((db2W.users.map User.id).Nodup)
    ∧ (∀ s ∈ db2W.sessions, ∃ u ∈ db2W.users, u.id = s.user_id)
    ∧ ((verify_session db2W "tok" 100).isSome ↔
        ∃ s ∈ db2W.sessions, s.session_token = "tok" ∧ 100 < s.expires_at)
    ∧ ((∀ s ∈ db2W.sessions, s.session_token = "tok" → s.expires_at ≤ 100) →
        verify_session db2W "tok" 100 = none) :=
  ⟨by decide, by decide,
    (c3_verify_session_spec db2W "tok" 100 (by decide) (by decide)).1,
    (c3_verify_session_spec db2W "tok" 100 (by decide) (by decide)).2.1⟩

/-- C1: registering a user whose username and email collide with no
already-registered user succeeds, and logging in afterwards with
either the username or the email as identifier and the same password
succeeds and returns the id, username, email and role of the user just
registered.  The hash hypotheses state the two facts the code relies
on about SHA-256 hex output and `token_hex` salts: neither contains a
colon. -/
theorem c1_register_then_authenticate (sha : List Char → List Char) (db : DB)
    (username email role : String) (password salt : List Char)
    (token : String) (now : Nat)
    (hsalt : ':' ∉ salt) (hsha : ∀ x, ':' ∉ sha x)
    (hnocoll : ∀ u ∈ db.users, username ≠ u.username ∧ username ≠ u.email
        ∧ email ≠ u.username ∧ email ≠ u.email) :
    (register_user sha db username email password role salt).2.1 = true
    ∧ ∀ ident, (ident = username ∨ ident = email) →
        (login_user sha (register_user sha db username email password role salt).1
          ident password token now).2
          = .ok db.nextUserId username email role token := by
  have hany : db.users.any (userCollides username email) = false := by
    rw [List.any_eq_false]
    intro u hu
    obtain ⟨h1, _h2, _h3, h4⟩ := hnocoll u hu
    simp [userCollides, Ne.symm h1, Ne.symm h4]
  have hreg : register_user sha db username email password role salt
      = ({ db with
            users := db.users ++ [⟨db.nextUserId, username, email,
              hash_password sha salt password, role, none⟩],
            nextUserId := db.nextUserId + 1 },
         true, "User registered successfully!") := by
    simp [register_user, hany]
  refine ⟨by rw [hreg], ?_⟩
  intro ident hident
  rw [hreg]
  have hfindold : db.users.find? (fun u => u.username == ident || u.email == ident)
      = none := by
    apply List.find?_eq_none.mpr
    intro u hu
    obtain ⟨h1, h2, h3, h4⟩ := hnocoll u hu
    rcases hident with rfl | rfl
    · simp [Ne.symm h1, Ne.symm h2]
    · simp [Ne.symm h3, Ne.symm h4]
  have hfind : findUser ident (db.users ++ [⟨db.nextUserId, username, email,
      hash_password sha salt password, role, none⟩]) = some ⟨db.nextUserId, username,
      email, hash_password sha salt password, role, none⟩ := by
    unfold findUser
    rw [List.find?_append, hfindold]
    rcases hident with rfl | rfl
    · simp [List.find?]
    · simp [List.find?]
  have hver : verify_password sha password (hash_password sha salt password) = true :=
    verify_hash_password sha hsalt (hsha (password ++ salt))
  simp [login_user, hfind, hver]

theorem c1_register_then_authenticate_witness :
    (':' ∉ ("sa".data : List Char))
    ∧ (∀ x, ':' ∉ shaW x)
    ∧ (∀ u ∈ emptyDB.users, "alice" ≠ u.username ∧ "alice" ≠ u.email
        ∧ "a@x" ≠ u.username ∧ "a@x" ≠ u.email)
    ∧ ((register_user shaW emptyDB "alice" "a@x" "pw".data "user" "sa".data).2.1 = true
      ∧ ∀ ident, (ident = "alice" ∨ ident = "a@x") →
          (login_user shaW
            (register_user shaW emptyDB "alice" "a@x" "pw".data "user" "sa".data).1
            ident "pw".data "tok" 100).2
            = .ok emptyDB.nextUserId "alice" "a@x" "user" "tok") :=
  ⟨by decide, shaW_no_colon, by decide,
    c1_register_then_authenticate shaW emptyDB "alice" "a@x" "user" "pw".data "sa".data
      "tok" 100 (by decide) shaW_no_colon (by decide)⟩

end Thorium
